import Mathlib

/-!
# Sales-ledger logic of `src/App.tsx`, shallowly embedded

The repository is a single-page sales tracker. Its core logic lives in
`src/App.tsx`: a list of transaction records mutated by
`handleAddTransaction`, `handleDeleteTransaction` and `handleClearAll`,
persisted to a single localStorage slot, and summarised by a `useMemo`
block (weekly/daily filters, running totals, a Thursday warning).

Modelling conventions:
* JavaScript numbers are modelled as `Int`. Every numeric value the core
  logic produces here (quantities and prices parsed with `parseInt`,
  `Date.now()` timestamps, sums and products of those) is an integer well
  inside the exactly-representable range of IEEE doubles, so integer
  arithmetic is faithful.
* Wall-clock inputs (`now`, the weekday index `now.getDay()`, the local
  midnight `startOfToday`) are parameters of the embedded functions, since
  every aggregate is a pure function of the ledger and the clock.
  Civil days are modelled as uniform 86,400,000 ms.
* The localStorage/JSON string layer is modelled at the level of parse
  outcomes: a stored slot is either absent, present but rejected by
  `JSON.parse`, or present and parsing to a JSON value (`Json` below).
  `JSON.stringify`/`JSON.parse` of the platform are mutually inverse on
  the values this program writes, so nothing is lost by working with the
  parsed values directly.
-/

namespace App

/-- The `Transaction` interface of `src/App.tsx`. -/
structure Transaction where
  id : String
  name : String
  quantity : Int
  price : Int
  timestamp : Int
  deriving Repr, DecidableEq

/-- `const WEEKLY_TARGET = 9000000;` from the `useMemo` block. -/
def WEEKLY_TARGET : Int := 9000000

/-- `const offset = (todayDay < 6) ? todayDay + 1 : todayDay - 6;`
`todayDay` is `now.getDay()` (Sun=0 … Sat=6). -/
def offset (todayDay : Nat) : Nat :=
  if todayDay < 6 then todayDay + 1 else todayDay - 6

/-- `startOfWeek`: local midnight `offset todayDay` days before today,
i.e. `startOfWeek.setDate(now.getDate() - offset); startOfWeek.setHours(0,0,0,0)`,
expressed from today's local midnight with uniform days. -/
def startOfWeekTs (startOfTodayTs : Int) (todayDay : Nat) : Int :=
  startOfTodayTs - (offset todayDay : Int) * 86400000

/-- `const weeklyTransactions = transactions.filter(t => t.timestamp >= startOfWeek.getTime());` -/
def weeklyTransactions (transactions : List Transaction) (startOfWeekTs : Int) :
    List Transaction :=
  transactions.filter fun t => startOfWeekTs ≤ t.timestamp

/-- `const dailyTransactions = weeklyTransactions.filter(t => t.timestamp >= startOfToday.getTime());` -/
def dailyTransactions (transactions : List Transaction)
    (startOfWeekTs startOfTodayTs : Int) : List Transaction :=
  (weeklyTransactions transactions startOfWeekTs).filter fun t =>
    startOfTodayTs ≤ t.timestamp

/-- `weekTotals`: the reduce accumulating `acc.sales += t.quantity * t.price`
over `weeklyTransactions`, starting from `{ sales: 0 }`. -/
def weekTotals (transactions : List Transaction) (startOfWeekTs : Int) : Int :=
  (weeklyTransactions transactions startOfWeekTs).foldl
    (fun acc t => acc + t.quantity * t.price) 0

/-- `dayTotals`: the reduce accumulating `acc.sales += t.quantity * t.price`
and `acc.items += Number(t.quantity)` over `dailyTransactions`, starting from
`{ sales: 0, items: 0 }`; the pair is `(sales, items)`. -/
def dayTotals (transactions : List Transaction)
    (startOfWeekTs startOfTodayTs : Int) : Int × Int :=
  (dailyTransactions transactions startOfWeekTs startOfTodayTs).foldl
    (fun acc t => (acc.1 + t.quantity * t.price, acc.2 + t.quantity)) (0, 0)

/-- `const isThursday = todayDay === 4;`
`const shouldShowWarning = isThursday && weekTotals.sales < WEEKLY_TARGET;` -/
def shouldShowWarning (todayDay : Nat) (transactions : List Transaction)
    (startOfWeekTs : Int) : Bool :=
  (todayDay == 4) && decide (weekTotals transactions startOfWeekTs < WEEKLY_TARGET)

/-- JavaScript's `String.prototype.trim`: the string without leading and
trailing whitespace, computed on the character list (the built-in
`String.trim` is not kernel-reducible, so witnesses could not evaluate it). -/
def trim (s : String) : String :=
  ⟨((s.data.dropWhile Char.isWhitespace).reverse.dropWhile Char.isWhitespace).reverse⟩

/-- `handleAddTransaction`: guarded by
`if (productName.trim() && Number(quantity) > 0 && Number(price) > 0)`
(a trimmed-empty name is falsy), it prepends
`{ id: crypto.randomUUID(), name: productName.trim(), quantity,
price, timestamp: Date.now() }`. The platform-supplied fresh id and the
current instant are parameters `freshId` and `now`. -/
def handleAddTransaction (transactions : List Transaction) (productName : String)
    (quantity price : Int) (freshId : String) (now : Int) : List Transaction :=
  if trim productName ≠ "" ∧ 0 < quantity ∧ 0 < price then
    { id := freshId, name := trim productName, quantity := quantity,
      price := price, timestamp := now } :: transactions
  else transactions

/-- `handleDeleteTransaction`: `transactions.filter(t => t.id !== id)`. -/
def handleDeleteTransaction (transactions : List Transaction) (i : String) :
    List Transaction :=
  transactions.filter fun t => t.id ≠ i

/-- `handleClearAll` after the confirmation prompt:
`transactions.filter(t => t.timestamp < startOfTodayTimestamp)`. The cutoff
is a parameter; in the source it is always today's local midnight. -/
def handleClearAll (transactions : List Transaction)
    (startOfTodayTimestamp : Int) : List Transaction :=
  transactions.filter fun t => t.timestamp < startOfTodayTimestamp

/-- JSON values, the codomain of the platform's `JSON.parse`. Numbers are
`Int` (see the header: every number this program stores is integral). -/
inductive Json where
  | null
  | bool (b : Bool)
  | num (n : Int)
  | str (s : String)
  | arr (items : List Json)
  | obj (fields : List (String × Json))

/-- What `localStorage.getItem('dailySales')` yields, keyed by the outcome
of `JSON.parse` on it: `absent` (null or the falsy empty string),
`malformed` (present, `JSON.parse` throws), or `parsed v`. -/
inductive StoredValue where
  | absent
  | malformed
  | parsed (v : Json)

/-- The `useState` initializer:
`try { const saved = localStorage.getItem('dailySales');
return saved ? JSON.parse(saved) : []; } catch { return []; }`.
It returns the raw parsed value — the source performs no shape validation,
the cast to `Transaction[]` is unchecked. -/
def load : StoredValue → Json
  | .absent => .arr []
  | .malformed => .arr []
  | .parsed v => v

/-- The JSON value `JSON.stringify` writes for one transaction: an object
with the five fields in the insertion order of the object literal in
`handleAddTransaction`. -/
def encodeTransaction (t : Transaction) : Json :=
  .obj [("id", .str t.id), ("name", .str t.name), ("quantity", .num t.quantity),
        ("price", .num t.price), ("timestamp", .num t.timestamp)]

/-- The persisting `useEffect`:
`localStorage.setItem('dailySales', JSON.stringify(transactions))`, at the
level of the parse outcome of the written string. -/
def persist (transactions : List Transaction) : StoredValue :=
  .parsed (.arr (transactions.map encodeTransaction))

/-- Modelled from the spec: the source has no decoder (the parsed value is
cast to `Transaction[]` unchecked), so this is the spec's notion of a
well-formed serialized transaction — exactly the shape `persist` writes,
read back into the fields `id`, `name`, `quantity`, `price`, `timestamp`
that the program accesses. -/
def decodeTransaction : Json → Option Transaction
  | .obj [("id", .str i), ("name", .str n), ("quantity", .num q),
          ("price", .num p), ("timestamp", .num ts)] =>
      some { id := i, name := n, quantity := q, price := p, timestamp := ts }
  | _ => none

/-- Decode a list of serialized transactions; `none` if any item fails. -/
def decodeItems : List Json → Option (List Transaction)
  | [] => some []
  | j :: rest =>
    match decodeTransaction j, decodeItems rest with
    | some t, some ts => some (t :: ts)
    | _, _ => none

/-- Modelled from the spec: a well-formed serialized ledger is a JSON array
of well-formed serialized transactions. -/
def decodeLedger : Json → Option (List Transaction)
  | .arr items => decodeItems items
  | _ => none

/-- The spec's direct definition of the daily bucket:
ledger records with `timestamp ≥ startOfToday`, filtered from the whole
ledger rather than from `weeklyTransactions`. -/
def dailyTransactionsSpec (transactions : List Transaction)
    (startOfTodayTs : Int) : List Transaction :=
  transactions.filter fun t => startOfTodayTs ≤ t.timestamp

/-! ## Helper lemmas -/

/-- The sales-accumulating fold is the sum of `quantity * price`. -/
theorem foldl_sales_eq (l : List Transaction) (init : Int) :
    l.foldl (fun acc t => acc + t.quantity * t.price) init
      = init + (l.map fun t => t.quantity * t.price).sum := by
  induction l generalizing init with
  | nil => simp
  | cons t rest ih => simp [ih]; ring

/-- First component of the `dayTotals` fold is the sum of `quantity * price`. -/
theorem foldl_pair_fst (l : List Transaction) (p : Int × Int) :
    (l.foldl (fun acc t => (acc.1 + t.quantity * t.price, acc.2 + t.quantity)) p).1
      = p.1 + (l.map fun t => t.quantity * t.price).sum := by
  induction l generalizing p with
  | nil => simp
  | cons t rest ih => simp [ih]; ring

/-! ## Claims -/

/-- C1: for every ledger and instant, `shouldShowWarning` is true iff the
weekday index is 4 (Thursday) and the week's sales total is strictly below
the fixed target 9,000,000; with a week total of 8,000,000 it is true on a
Thursday and false on a Friday. -/
theorem shouldShowWarning_spec :
    (∀ (todayDay : Nat) (transactions : List Transaction) (sow : Int),
      shouldShowWarning todayDay transactions sow = true ↔
        todayDay = 4 ∧ weekTotals transactions sow < WEEKLY_TARGET)
    ∧ WEEKLY_TARGET = 9000000
    ∧ shouldShowWarning 4 [⟨"t1", "Produk", 1, 8000000, 0⟩] 0 = true
    ∧ shouldShowWarning 5 [⟨"t1", "Produk", 1, 8000000, 0⟩] 0 = false := by
  refine ⟨?_, rfl, by decide, by decide⟩
  intro d l sow
  simp [shouldShowWarning]

/-- C2: a valid add (name not trimming to empty, positive quantity and
price) prepends exactly the new record — trimmed name, given quantity and
price, the fresh id and the current instant — leaving the previous ledger
as the tail, so the size grows by one. -/
theorem handleAddTransaction_valid (transactions : List Transaction)
    (productName : String) (quantity price : Int) (freshId : String) (now : Int)
    (hname : trim productName ≠ "") (hq : 0 < quantity) (hp : 0 < price) :
    handleAddTransaction transactions productName quantity price freshId now =
      { id := freshId, name := trim productName, quantity := quantity,
        price := price, timestamp := now } :: transactions
    ∧ (handleAddTransaction transactions productName quantity price freshId now).length
        = transactions.length + 1 := by
  have h : trim productName ≠ "" ∧ 0 < quantity ∧ 0 < price := ⟨hname, hq, hp⟩
  unfold handleAddTransaction
  rw [if_pos h]
  exact ⟨rfl, by simp⟩

/-- C2 witness: adding "Kopi Susu", quantity 2, price 18000 to the empty
ledger yields exactly that one record. -/
theorem handleAddTransaction_valid_witness :
    handleAddTransaction [] "Kopi Susu" 2 18000 "id-1" 1000 =
      [{ id := "id-1", name := trim "Kopi Susu", quantity := 2, price := 18000,
         timestamp := 1000 }]
    ∧ (handleAddTransaction [] "Kopi Susu" 2 18000 "id-1" 1000).length
        = ([] : List Transaction).length + 1 :=
  handleAddTransaction_valid [] "Kopi Susu" 2 18000 "id-1" 1000
    (by decide) (by decide) (by decide)

/-- C3: an invalid add (name trims to empty, or quantity ≤ 0, or price ≤ 0)
leaves the ledger unchanged: no record is created and no error is raised
(the function is total and the guard simply skips the update). -/
theorem handleAddTransaction_invalid (transactions : List Transaction)
    (productName : String) (quantity price : Int) (freshId : String) (now : Int)
    (h : trim productName = "" ∨ quantity ≤ 0 ∨ price ≤ 0) :
    handleAddTransaction transactions productName quantity price freshId now
      = transactions := by
  unfold handleAddTransaction
  rw [if_neg]
  rintro ⟨h1, h2, h3⟩
  rcases h with h | h | h
  · exact h1 h
  · omega
  · omega

/-- C3 witness: adding a whitespace-only name is rejected and the ledger
stays empty. -/
theorem handleAddTransaction_invalid_witness :
    handleAddTransaction [] " " 2 18000 "id-2" 1000 = [] :=
  handleAddTransaction_invalid [] " " 2 18000 "id-2" 1000 (Or.inl (by decide))

/-- C4 counterexample: the stored string `"5"` parses (to the JSON number 5),
is not a well-formed serialized ledger, yet `load` returns it unchanged
rather than the empty ledger — the initializer performs no shape
validation, only the parse exception is caught. -/
theorem load_nonledger_counterexample :
    decodeLedger (load (StoredValue.parsed (Json.num 5))) = none
    ∧ load (StoredValue.parsed (Json.num 5)) = Json.num 5
    ∧ Json.num 5 ≠ Json.arr [] :=
  ⟨rfl, rfl, fun h => Json.noConfusion h⟩

/-- C4 amended: `load` yields the empty array when the slot is absent or
when `JSON.parse` rejects its contents (the exception is caught), and it is
total; a value that parses successfully is returned as-is, without shape
validation. -/
theorem load_soft_fail :
    load StoredValue.absent = Json.arr []
    ∧ load StoredValue.malformed = Json.arr []
    ∧ ∀ v : Json, load (StoredValue.parsed v) = v :=
  ⟨rfl, rfl, fun _ => rfl⟩

/-- C5: persisting a ledger and loading the stored value back yields the
same ledger: the parsed value is exactly the serialization, and decoding it
recovers every record. -/
theorem persist_load_roundtrip (transactions : List Transaction) :
    load (persist transactions) = Json.arr (transactions.map encodeTransaction)
    ∧ decodeLedger (load (persist transactions)) = some transactions := by
  refine ⟨rfl, ?_⟩
  show decodeItems (transactions.map encodeTransaction) = some transactions
  induction transactions with
  | nil => rfl
  | cons t rest ih =>
    simp only [List.map_cons, decodeItems, ih,
      show decodeTransaction (encodeTransaction t) = some t from rfl]

/-- C6: for every ledger whose records have nonnegative quantity and price
(the data model's invariant; every record the add operation creates
satisfies it), the daily bucket is a subset of the weekly bucket and
today's sales total is at most this week's. -/
theorem daily_within_weekly (transactions : List Transaction) (sow sot : Int)
    (hpos : ∀ t ∈ transactions, 0 ≤ t.quantity ∧ 0 ≤ t.price) :
    dailyTransactions transactions sow sot ⊆ weeklyTransactions transactions sow
    ∧ (dayTotals transactions sow sot).1 ≤ weekTotals transactions sow := by
  constructor
  · exact (List.filter_sublist _).subset
  · rw [weekTotals, dayTotals, foldl_pair_fst, foldl_sales_eq]
    simp only [zero_add]
    apply List.Sublist.sum_le_sum
    · exact (List.filter_sublist _).map _
    · intro x hx
      obtain ⟨t, ht, rfl⟩ := List.mem_map.mp hx
      obtain ⟨hq, hp⟩ := hpos t ((List.filter_sublist _).subset ht)
      exact mul_nonneg hq hp

/-- C6 witness: on a one-record ledger (timestamp 50, week start 0, day
start 10) the inclusion and the total inequality hold. -/
theorem daily_within_weekly_witness :
    dailyTransactions [⟨"a", "kopi", 2, 18000, 50⟩] 0 10
        ⊆ weeklyTransactions [⟨"a", "kopi", 2, 18000, 50⟩] 0
    ∧ (dayTotals [⟨"a", "kopi", 2, 18000, 50⟩] 0 10).1
        ≤ weekTotals [⟨"a", "kopi", 2, 18000, 50⟩] 0 :=
  daily_within_weekly [⟨"a", "kopi", 2, 18000, 50⟩] 0 10 (by decide)

/-- C7: clearing with a cutoff keeps exactly the records with timestamp
strictly below the cutoff (so it removes exactly those with timestamp ≥
cutoff), unchanged and in their original relative order; with the cutoff at
today's local midnight this removes only today's records. -/
theorem handleClearAll_spec (transactions : List Transaction) (cutoff : Int) :
    (∀ t, t ∈ handleClearAll transactions cutoff ↔
      t ∈ transactions ∧ t.timestamp < cutoff)
    ∧ (handleClearAll transactions cutoff).Sublist transactions := by
  constructor
  · intro t
    simp [handleClearAll]
  · exact List.filter_sublist _

/-- C8: deleting an id twice equals deleting it once, and deleting an id no
record carries leaves the ledger unchanged (and raises no error — the
filter is total). -/
theorem handleDeleteTransaction_idem (transactions : List Transaction) (i : String) :
    handleDeleteTransaction (handleDeleteTransaction transactions i) i
      = handleDeleteTransaction transactions i
    ∧ ((∀ t ∈ transactions, t.id ≠ i) →
        handleDeleteTransaction transactions i = transactions) := by
  constructor
  · apply List.filter_eq_self.mpr
    intro t ht
    exact (List.mem_filter.mp ht).2
  · intro h
    apply List.filter_eq_self.mpr
    intro t ht
    exact decide_eq_true (h t ht)

/-- C9: the code's daily bucket, a filter of `weeklyTransactions` by
`timestamp ≥ startOfToday`, equals the spec's direct filter of the whole
ledger, because the week start — local midnight `offset` days back,
`offset = weekday < 6 ? weekday + 1 : weekday - 6` — never lies after
today's local midnight, for every weekday index. -/
theorem dailyTransactions_refines (transactions : List Transaction)
    (sot : Int) (todayDay : Nat) :
    startOfWeekTs sot todayDay ≤ sot
    ∧ dailyTransactions transactions (startOfWeekTs sot todayDay) sot
        = dailyTransactionsSpec transactions sot := by
  have hle : startOfWeekTs sot todayDay ≤ sot := by
    have h0 : (0:Int) ≤ (offset todayDay : Int) * 86400000 := by positivity
    exact sub_le_self _ h0
  refine ⟨hle, ?_⟩
  unfold dailyTransactions weeklyTransactions dailyTransactionsSpec
  rw [List.filter_filter]
  apply List.filter_congr
  intro t _
  by_cases h : sot ≤ t.timestamp
  · simp [h, le_trans hle h]
  · simp [h]

/-- C10: deleting an id keeps exactly the records whose id differs — every
record with the given id is removed, duplicates included, and the kept
records are unchanged and in their original relative order. -/
theorem handleDeleteTransaction_frame (transactions : List Transaction) (i : String) :
    (∀ t, t ∈ handleDeleteTransaction transactions i ↔
      t ∈ transactions ∧ t.id ≠ i)
    ∧ (handleDeleteTransaction transactions i).Sublist transactions := by
  constructor
  · intro t
    simp [handleDeleteTransaction]
  · exact List.filter_sublist _

end App
